import Mathlib

/-!
Shallow embedding of the data-refinement pipeline of this repository
(`refine_data.py` and `data_analysis.py`).

A data frame is a header (list of column names) together with an ordered
list of rows; each row is a list of raw cell values aligned with the
header.  Cell values are of mixed type: integers, strings, or the
missing-value sentinel (pandas NaN).  The schema ("data dictionary") maps
a column name to its code map, a mapping from string-typed admissible
code to human label.
-/

/-- A raw cell value: numeric, string, or missing (NaN). -/
inductive Value where
  | int : Int → Value
  | str : String → Value
  | null : Value
deriving DecidableEq, Repr

/-- String coercion of a cell value, as Python's `str` / pandas `astype(str)`:
integers print in decimal (`str(1) = "1"`, `str(-8) = "-8"`), strings are
unchanged, and the missing sentinel prints as `"nan"`. -/
def valueStr : Value → String
  | Value.int n => toString n
  | Value.str s => s
  | Value.null => "nan"

/-- A code map of a single column: association list from admissible code
(string) to label, as one entry of the JSON data dictionary. -/
abbrev CodeMap := List (String × String)

/-- The data dictionary: association list from column name to code map. -/
abbrev Schema := List (String × CodeMap)

/-- A row of the table: cell values aligned with the header. -/
abbrev Row := List Value

/-- A data frame: header plus ordered rows. -/
structure DataFrame where
  cols : List String
  rows : List Row
deriving DecidableEq, Repr

/-- Value of `row` at column `c` of header `cols`; a cell that is out of
range or a column absent from the header reads as the missing sentinel
(pandas fills absent trailing cells with NaN). -/
def getVal (cols : List String) (row : Row) (c : String) : Value :=
  row.getD (cols.indexOf c) Value.null

/-- First-occurrence deduplication by key, as
`df.drop_duplicates(subset=[id_col], keep='first')`: scan in order, keep a
row whose key has not been seen, drop the rest.  `seen` is the
accumulator of keys already kept. -/
def dedupByKey {α β : Type} [DecidableEq β] (key : α → β) : List β → List α → List α
  | _, [] => []
  | seen, x :: xs =>
    if key x ∈ seen then dedupByKey key seen xs
    else x :: dedupByKey key (key x :: seen) xs

/-- The deduplicated record set of `refine`, with each surviving row
paired with its original (pandas) index: `df.drop_duplicates
(subset=[id_col], keep='first')` applied to the raw frame, whose index is
`0..n-1` from `read_csv`. -/
def dedupRows (df : DataFrame) (id_col : String) : List (Nat × Row) :=
  dedupByKey (fun p => getVal df.cols p.2 id_col) [] df.rows.enum

/-- Does value `v` violate the consistency check for a column with code
map `codeMap`?  A missing (NaN) value is a violation; a non-null value is
a violation exactly when its string coercion is not among the admissible
keys.  (In the source the two cases are flagged by the `isna` pass and
the `~isin(admissible_keys)` pass respectively.) -/
def violates (v : Value) (codeMap : CodeMap) : Bool :=
  if v = Value.null then true
  else ! (codeMap.map Prod.fst).contains (valueStr v)

/-- Indices flagged while scanning one schema column `cm` over the
deduplicated rows: first the missing-value (NaN) pass
(`df[df[col].isna()]`), then the admissibility pass on the non-null rows
(`~df_non_null[col].astype(str).isin(admissible_keys)`), exactly as the
loop body of `refine`. -/
def colViolations (cols : List String) (rows : List (Nat × Row)) (cm : String × CodeMap) :
    List Nat :=
  (rows.filter (fun p => decide (getVal cols p.2 cm.1 = Value.null))).map Prod.fst
    ++ ((rows.filter (fun p => decide (getVal cols p.2 cm.1 ≠ Value.null))).filter
        (fun p => ! (cm.2.map Prod.fst).contains (valueStr (getVal cols p.2 cm.1)))).map
        Prod.fst

/-- The accumulated `broken_records_indices`: union over the schema
columns of the per-column violation indices.  (The source keeps them in a
Python set; only membership matters for the partition, so the list of all
flagged indices is an equivalent representation.) -/
def brokenIndices (cols : List String) (data_dict : Schema) (rows : List (Nat × Row)) :
    List Nat :=
  data_dict.flatMap (colViolations cols rows)

/-- Does `row` violate any schema column?  Row-level reformulation of
membership in `brokenIndices`, used to state the claims. -/
def rowBroken (cols : List String) (data_dict : Schema) (row : Row) : Bool :=
  data_dict.any (fun cm => violates (getVal cols row cm.1) cm.2)

/-- The rows `refine` keeps (`df.drop(index=broken_records_indices)`): the
deduplicated rows whose index was never flagged, in order. -/
def refinedPart (df : DataFrame) (data_dict : Schema) (id_col : String) :
    List (Nat × Row) :=
  (dedupRows df id_col).filter
    (fun p => ! (brokenIndices df.cols data_dict (dedupRows df id_col)).contains p.1)

/-- The rows `refine` removes (`df.loc[sorted(broken_records_indices)]`):
the deduplicated rows whose index was flagged.  The deduplicated frame's
index is strictly increasing, so ascending-index order is deduplicated
order. -/
def removedPart (df : DataFrame) (data_dict : Schema) (id_col : String) :
    List (Nat × Row) :=
  (dedupRows df id_col).filter
    (fun p => (brokenIndices df.cols data_dict (dedupRows df id_col)).contains p.1)

/-- The `refine` function of `refine_data.py`.  `none` models a fatal
abort: `sys.exit(1)` when a schema column is missing from the header, and
the `KeyError` escaping from `drop_duplicates` when the identifier column
is missing (both terminate the run with nonzero exit before any output).
Otherwise it deduplicates on the identifier column keeping first
occurrences, flags rows with missing or inadmissible values in any schema
column, and returns the pair (refined frame, removed frame): the removed
frame is `df.loc[sorted(broken_records_indices)]` — the flagged rows in
ascending index order, which is their deduplicated order — and the
refined frame is the remaining rows in order (`df.drop(index=...)`), both
re-indexed from zero.  When nothing is flagged the source's `else` branch
returns a copy of the deduplicated frame and an empty frame with the same
columns, which the same filters produce. -/
def refine (df_raw : DataFrame) (data_dict : Schema) (id_col : String := "SerialNum") :
    Option (DataFrame × DataFrame) :=
  let missing_cols := (data_dict.map Prod.fst).filter (fun c => ! df_raw.cols.contains c)
  if missing_cols ≠ [] then
    none
  else if ! df_raw.cols.contains id_col then
    none
  else
    let df_refined := (refinedPart df_raw data_dict id_col).map Prod.snd
    let df_removed := (removedPart df_raw data_dict id_col).map Prod.snd
    some (⟨df_raw.cols, df_refined⟩, ⟨df_raw.cols, df_removed⟩)

/-!
Embedding of the analysis layer (`data_analysis.py`).  The plotting calls
are side effects with no data contract; the embedded functions return the
tabular structures the source computes and displays.
-/

/-- Total order on cell values used to model `sort_index()`: pandas sorts
a homogeneous column by its values (integers numerically, strings
lexicographically); the cross-type cases never arise for a homogeneous
column and are fixed arbitrarily (null first, then integers, then
strings) to make the order total. -/
def vle : Value → Value → Prop
  | Value.null, _ => True
  | Value.int _, Value.null => False
  | Value.int a, Value.int b => a ≤ b
  | Value.int _, Value.str _ => True
  | Value.str _, Value.null => False
  | Value.str _, Value.int _ => False
  | Value.str a, Value.str b => a ≤ b

instance : DecidableRel vle := fun a b => by
  cases a <;> cases b <;> simp only [vle] <;> infer_instance

instance : IsTotal Value vle :=
  ⟨fun a b => by cases a <;> cases b <;> simp only [vle, or_true, true_or] <;>
    exact le_total _ _⟩

instance : IsTrans Value vle :=
  ⟨fun a b c hab hbc => by
    cases a <;> cases b <;> cases c <;> simp only [vle] at * <;> exact le_trans hab hbc⟩

/-- `series.value_counts().sort_index()`: per-distinct-value counts of the
non-null entries (`value_counts` drops NaN), listed in ascending order of
the underlying value.  Each result entry pairs a distinct value with its
number of occurrences. -/
def valueCountsSorted (vals : List Value) : List (Value × Nat) :=
  let nonNull := vals.filter (fun v => decide (v ≠ Value.null))
  (List.insertionSort vle nonNull.dedup).map (fun v => (v, nonNull.count v))

/-- The values of column `c` of `df`, in row order (`df[c]`). -/
def columnOf (df : DataFrame) (c : String) : List Value :=
  df.rows.map (fun r => getVal df.cols r c)

/-- `mapping_from_dict` of `data_analysis.py`: the code map of a column,
or the empty map when the column is unknown (`data_dict.get(column_name, {})`). -/
def mapping_from_dict (column_name : String) (data_dict : Schema) : CodeMap :=
  (List.lookup column_name data_dict).getD []

/-- `get_labels_and_counts` of `data_analysis.py`: value counts of the
column sorted by code ascending; each code is mapped through the code map
by its string coercion (`str(code)`), falling back to the synthetic label
`"Code {code}"` when absent; returns the parallel (labels, counts) lists. -/
def get_labels_and_counts (df : DataFrame) (column_name : String) (code_mapping : CodeMap) :
    List String × List Nat :=
  let counts := valueCountsSorted (columnOf df column_name)
  (counts.map (fun p => (List.lookup (valueStr p.1) code_mapping).getD
      ("Code " ++ valueStr p.1)),
   counts.map Prod.snd)

/-- The label pairs `crosstab_groupby` groups by: each row's two codes are
string-coerced and sent through their column's code map
(`df[col].astype(str).map(mapN)`); a code absent from its map yields a
null label and `groupby` (default `dropna=True`) drops the row, so only
rows with both labels defined contribute a pair. -/
def labelPairs (df : DataFrame) (col1 col2 : String) (data_dict : Schema) :
    List (String × String) :=
  let map1 := mapping_from_dict col1 data_dict
  let map2 := mapping_from_dict col2 data_dict
  df.rows.filterMap (fun r =>
    match List.lookup (valueStr (getVal df.cols r col1)) map1,
          List.lookup (valueStr (getVal df.cols r col2)) map2 with
    | some a, some b => some (a, b)
    | _, _ => none)

/-- The 2-D table `crosstab_groupby` returns: row/column index names, the
label axes, and the cell matrix aligned with them. -/
structure Crosstab where
  rowName : String
  colName : String
  rowLabels : List String
  colLabels : List String
  cells : List (List Nat)
deriving DecidableEq, Repr

/-- `crosstab_groupby` of `data_analysis.py`: group the label pairs, count
occurrences per pair (`groupby(['Col1','Col2']).size()`), and unstack into
a table over the observed row labels × the observed column labels with
absent combinations filled as zero (`unstack(fill_value=0)`); `groupby`
sorts the group keys ascending.  The index names are set to the original
column names. -/
def crosstab_groupby (df : DataFrame) (col1 col2 : String) (data_dict : Schema) : Crosstab :=
  let pairs := labelPairs df col1 col2 data_dict
  let rls := List.insertionSort (· ≤ ·) (pairs.map Prod.fst).dedup
  let cls := List.insertionSort (· ≤ ·) (pairs.map Prod.snd).dedup
  { rowName := col1, colName := col2, rowLabels := rls, colLabels := cls,
    cells := rls.map (fun rl => cls.map (fun cl => pairs.count (rl, cl))) }

/-- Table lookup: the cell of `t` at row label `rl` and column label `cl`,
`none` when the labels are not on the axes. -/
def lookupCell (t : Crosstab) (rl cl : String) : Option Nat :=
  (t.cells[t.rowLabels.indexOf rl]?).bind (fun rowCells => rowCells[t.colLabels.indexOf cl]?)

/-- The filtered frame of `pandas_filtering`:
`df[df[filter_col].astype(str).isin(filter_codes)]`. -/
def filteredSub (df : DataFrame) (filter_col : String) (filter_codes : List String) :
    DataFrame :=
  ⟨df.cols, df.rows.filter (fun r =>
    filter_codes.contains (valueStr (getVal df.cols r filter_col)))⟩

/-- The tabulation `pandas_filtering` of `data_analysis.py` builds and
prints: restrict to rows whose string-coerced filter-column value is an
acceptable code, take `value_counts().sort_index()` of the summary
column, and map the index through the group map
(`index.astype(str).map(group_map)`) — with no fallback, so a code absent
from the map gets a null label.  Returns the (labels, counts) columns of
`distribution_counts`. -/
def pandas_filtering (df : DataFrame) (filter_col : String) (filter_codes : List String)
    (groupby_col : String) (data_dict : Schema) : List (Option String) × List Nat :=
  let df_filtered := filteredSub df filter_col filter_codes
  let group_map := mapping_from_dict groupby_col data_dict
  let counts := valueCountsSorted (columnOf df_filtered groupby_col)
  (counts.map (fun p => List.lookup (valueStr p.1) group_map),
   counts.map Prod.snd)

/-!
Helper lemmas about first-occurrence deduplication.
-/

theorem dedupByKey_sublist {α β : Type} [DecidableEq β] (key : α → β) :
    ∀ (seen : List β) (l : List α), List.Sublist (dedupByKey key seen l) l
  | _, [] => List.Sublist.refl []
  | seen, x :: xs => by
    simp only [dedupByKey]
    split
    · exact (dedupByKey_sublist key seen xs).cons x
    · exact (dedupByKey_sublist key (key x :: seen) xs).cons₂ x

theorem key_not_seen_of_mem_dedupByKey {α β : Type} [DecidableEq β] (key : α → β) :
    ∀ (seen : List β) (l : List α) (a : α), a ∈ dedupByKey key seen l → key a ∉ seen
  | seen, [] => by simp [dedupByKey]
  | seen, x :: xs => by
    intro a ha
    simp only [dedupByKey] at ha
    split at ha
    · exact key_not_seen_of_mem_dedupByKey key seen xs a ha
    · rcases List.mem_cons.mp ha with rfl | ha'
      · assumption
      · intro hmem
        exact key_not_seen_of_mem_dedupByKey key (key x :: seen) xs a ha'
          (List.mem_cons_of_mem _ hmem)

theorem dedupByKey_pairwise {α β : Type} [DecidableEq β] (key : α → β) :
    ∀ (seen : List β) (l : List α),
      (dedupByKey key seen l).Pairwise (fun a b => key a ≠ key b)
  | _, [] => List.Pairwise.nil
  | seen, x :: xs => by
    simp only [dedupByKey]
    split
    · exact dedupByKey_pairwise key seen xs
    · refine List.Pairwise.cons (fun b hb hkey => ?_) (dedupByKey_pairwise key _ xs)
      exact key_not_seen_of_mem_dedupByKey key (key x :: seen) xs b hb
        (hkey ▸ List.mem_cons_self _ _)

theorem dedupByKey_eq_self {α β : Type} [DecidableEq β] (key : α → β) :
    ∀ (seen : List β) (l : List α), l.Pairwise (fun a b => key a ≠ key b) →
      (∀ a ∈ l, key a ∉ seen) → dedupByKey key seen l = l
  | _, [], _, _ => rfl
  | seen, x :: xs, hpw, hseen => by
    have hx : key x ∉ seen := hseen x (List.mem_cons_self _ _)
    simp only [dedupByKey, if_neg hx, List.cons.injEq, true_and]
    refine dedupByKey_eq_self key _ xs (List.pairwise_cons.mp hpw).2 (fun a ha => ?_)
    intro hmem
    rcases List.mem_cons.mp hmem with heq | hmem'
    · exact (List.pairwise_cons.mp hpw).1 a ha heq.symm
    · exact hseen a (List.mem_cons_of_mem _ ha) hmem'

theorem dedupByKey_filter_key {α β : Type} [DecidableEq β] (key : α → β) (v : β) :
    ∀ (seen : List β) (l : List α),
      (dedupByKey key seen l).filter (fun a => decide (key a = v)) =
        if v ∈ seen then [] else (l.filter (fun a => decide (key a = v))).take 1
  | seen, [] => by simp [dedupByKey]
  | seen, x :: xs => by
    simp only [dedupByKey]
    by_cases hx : key x ∈ seen
    · rw [if_pos hx, dedupByKey_filter_key key v seen xs]
      by_cases hv : v ∈ seen
      · simp [hv]
      · have hxv : ¬ (key x = v) := fun h => hv (h ▸ hx)
        rw [if_neg hv, if_neg hv, List.filter_cons, if_neg (by simpa using hxv)]
    · rw [if_neg hx]
      by_cases hxv : key x = v
      · subst hxv
        have hv : key x ∉ seen := hx
        rw [if_neg hv, List.filter_cons, if_pos (by simp),
          List.filter_cons, if_pos (by simp),
          dedupByKey_filter_key key (key x) (key x :: seen) xs,
          if_pos (List.mem_cons_self _ _)]
        rfl
      · rw [List.filter_cons, if_neg (by simpa using hxv),
          dedupByKey_filter_key key v (key x :: seen) xs]
        by_cases hv : v ∈ seen
        · rw [if_pos (List.mem_cons_of_mem _ hv), if_pos hv]
        · rw [if_neg (fun h => by
            rcases List.mem_cons.mp h with h' | h'
            · exact hxv h'.symm
            · exact hv h'),
            if_neg hv, List.filter_cons, if_neg (by simpa using hxv)]

theorem length_filter_partition {α : Type} (p : α → Bool) (l : List α) :
    (l.filter p).length + (l.filter (fun a => ! p a)).length = l.length := by
  induction l with
  | nil => rfl
  | cons x xs ih =>
    cases hx : p x <;> simp [List.filter_cons, hx] <;> omega

theorem pairwise_enum_snd {α : Type} {R : α → α → Prop} {l : List α} (h : l.Pairwise R) :
    l.enum.Pairwise (fun p q => R p.2 q.2) := by
  have := List.pairwise_map (l := l.enum) (f := Prod.snd) (R := R)
  rw [List.enum_map_snd] at this
  exact this.mp h

/-!
Helper lemmas about the violation bookkeeping and the `refine` partition.
-/

theorem violates_iff {v : Value} {m : CodeMap} :
    violates v m = true ↔
      (v = Value.null ∨
        (v ≠ Value.null ∧ (m.map Prod.fst).contains (valueStr v) = false)) := by
  unfold violates
  split <;> simp_all

theorem mem_colViolations {cols : List String} {rows : List (Nat × Row)}
    {cm : String × CodeMap} {i : Nat} :
    i ∈ colViolations cols rows cm ↔
      ∃ p ∈ rows, p.1 = i ∧ violates (getVal cols p.2 cm.1) cm.2 = true := by
  simp only [colViolations, List.mem_append, List.mem_map, List.mem_filter,
    decide_eq_true_eq, Bool.not_eq_true']
  constructor
  · rintro (⟨p, ⟨hp, hnull⟩, hi⟩ | ⟨p, ⟨⟨hp, hnn⟩, hc⟩, hi⟩)
    · exact ⟨p, hp, hi, violates_iff.mpr (Or.inl hnull)⟩
    · exact ⟨p, hp, hi, violates_iff.mpr (Or.inr ⟨hnn, hc⟩)⟩
  · rintro ⟨p, hp, hi, hviol⟩
    rcases violates_iff.mp hviol with hnull | ⟨hnn, hc⟩
    · exact Or.inl ⟨p, ⟨hp, hnull⟩, hi⟩
    · exact Or.inr ⟨p, ⟨⟨hp, hnn⟩, hc⟩, hi⟩

theorem mem_brokenIndices {cols : List String} {data_dict : Schema}
    {rows : List (Nat × Row)} {i : Nat} :
    i ∈ brokenIndices cols data_dict rows ↔
      ∃ cm ∈ data_dict, ∃ p ∈ rows, p.1 = i ∧
        violates (getVal cols p.2 cm.1) cm.2 = true := by
  simp only [brokenIndices, List.mem_flatMap, mem_colViolations]

theorem dedupRows_map_fst_nodup (df : DataFrame) (id_col : String) :
    ((dedupRows df id_col).map Prod.fst).Nodup := by
  have h1 := dedupByKey_sublist (fun p : Nat × Row => getVal df.cols p.2 id_col) []
    df.rows.enum
  have h2 := h1.map Prod.fst
  rw [List.enum_map_fst] at h2
  exact (List.nodup_range _).sublist h2

theorem dedupRows_pairwise_key (df : DataFrame) (id_col : String) :
    (dedupRows df id_col).Pairwise
      (fun p q => getVal df.cols p.2 id_col ≠ getVal df.cols q.2 id_col) :=
  dedupByKey_pairwise _ [] df.rows.enum

theorem dedupRows_map_snd_nodup (df : DataFrame) (id_col : String) :
    ((dedupRows df id_col).map Prod.snd).Nodup := by
  rw [List.Nodup, List.pairwise_map]
  exact (dedupRows_pairwise_key df id_col).imp (fun h heq => h (by rw [heq]))

theorem mem_brokenIndices_iff_rowBroken {df : DataFrame} {data_dict : Schema}
    {id_col : String} {i : Nat} {row : Row}
    (hmem : (i, row) ∈ dedupRows df id_col) :
    (i ∈ brokenIndices df.cols data_dict (dedupRows df id_col) ↔
      rowBroken df.cols data_dict row = true) := by
  rw [mem_brokenIndices, rowBroken, List.any_eq_true]
  constructor
  · rintro ⟨cm, hcm, p, hp, hpi, hviol⟩
    have hpq : p = (i, row) :=
      List.inj_on_of_nodup_map (dedupRows_map_fst_nodup df id_col) hp hmem hpi
    rw [hpq] at hviol
    exact ⟨cm, hcm, hviol⟩
  · rintro ⟨cm, hcm, hviol⟩
    exact ⟨cm, hcm, (i, row), hmem, rfl, hviol⟩

theorem refine_eq_some {df : DataFrame} {data_dict : Schema} {id_col : String}
    {ref rem : DataFrame} (h : refine df data_dict id_col = some (ref, rem)) :
    ((data_dict.map Prod.fst).filter (fun c => ! df.cols.contains c) = []) ∧
      df.cols.contains id_col = true ∧
      ref = ⟨df.cols, (refinedPart df data_dict id_col).map Prod.snd⟩ ∧
      rem = ⟨df.cols, (removedPart df data_dict id_col).map Prod.snd⟩ := by
  simp only [refine] at h
  split_ifs at h with h1 h2
  refine ⟨?_, ?_, ?_, ?_⟩
  · simpa using h1
  · simpa using h2
  · exact congrArg Prod.fst (Option.some.inj h).symm
  · exact congrArg Prod.snd (Option.some.inj h).symm

theorem mem_removed_iff {df : DataFrame} {data_dict : Schema} {id_col : String}
    {ref rem : DataFrame} (h : refine df data_dict id_col = some (ref, rem))
    {i : Nat} {row : Row} (hmem : (i, row) ∈ dedupRows df id_col) :
    (row ∈ rem.rows ↔ rowBroken df.cols data_dict row = true) := by
  obtain ⟨-, -, -, hrem⟩ := refine_eq_some h
  subst hrem
  simp only [removedPart, List.mem_map, List.mem_filter]
  constructor
  · rintro ⟨p, ⟨hp, hbrk⟩, hsnd⟩
    have hpq : p = (i, row) := by
      have hnd := dedupRows_map_snd_nodup df id_col
      exact List.inj_on_of_nodup_map hnd hp hmem hsnd
    rw [hpq] at hbrk
    exact (mem_brokenIndices_iff_rowBroken hmem).mp (by simpa using hbrk)
  · intro hbrk
    refine ⟨(i, row), ⟨hmem, ?_⟩, rfl⟩
    simpa using (mem_brokenIndices_iff_rowBroken hmem).mpr hbrk

theorem mem_refined_iff {df : DataFrame} {data_dict : Schema} {id_col : String}
    {ref rem : DataFrame} (h : refine df data_dict id_col = some (ref, rem))
    {i : Nat} {row : Row} (hmem : (i, row) ∈ dedupRows df id_col) :
    (row ∈ ref.rows ↔ rowBroken df.cols data_dict row = false) := by
  obtain ⟨-, -, href, -⟩ := refine_eq_some h
  subst href
  simp only [refinedPart, List.mem_map, List.mem_filter]
  constructor
  · rintro ⟨p, ⟨hp, hbrk⟩, hsnd⟩
    have hpq : p = (i, row) := by
      have hnd := dedupRows_map_snd_nodup df id_col
      exact List.inj_on_of_nodup_map hnd hp hmem hsnd
    rw [hpq] at hbrk
    have : i ∉ brokenIndices df.cols data_dict (dedupRows df id_col) := by
      simpa using hbrk
    exact Bool.eq_false_iff.mpr
      (fun hb => this ((mem_brokenIndices_iff_rowBroken hmem).mpr hb))
  · intro hbrk
    refine ⟨(i, row), ⟨hmem, ?_⟩, rfl⟩
    have : i ∉ brokenIndices df.cols data_dict (dedupRows df id_col) :=
      fun hb => by
        rw [(mem_brokenIndices_iff_rowBroken hmem).mp hb] at hbrk
        exact Bool.true_eq_false.mp hbrk
    simpa using this

/-!
Concrete example inputs, used to instantiate the theorems below.
-/

/-- Example raw frame: one duplicate identifier (10), one inadmissible SEX
code (3), one missing SEX value, and two fully valid records. -/
def dfEx : DataFrame :=
  ⟨["SerialNum", "SEX"],
   [[Value.int 10, Value.int 1],
    [Value.int 10, Value.int 2],
    [Value.int 11, Value.int 3],
    [Value.int 12, Value.null],
    [Value.int 13, Value.int 2]]⟩

/-- Example schema: the SEX column admits the codes "1" and "2". -/
def dictEx : Schema := [("SEX", [("1", "Male"), ("2", "Female")])]

/-- The refined frame `refine dfEx dictEx "SerialNum"` returns. -/
def refEx : DataFrame :=
  ⟨["SerialNum", "SEX"], [[Value.int 10, Value.int 1], [Value.int 13, Value.int 2]]⟩

/-- The removed frame `refine dfEx dictEx "SerialNum"` returns. -/
def remEx : DataFrame :=
  ⟨["SerialNum", "SEX"], [[Value.int 11, Value.int 3], [Value.int 12, Value.null]]⟩

/-- A frame lacking the schema-declared SEX column. -/
def dfNoSex : DataFrame := ⟨["SerialNum"], [[Value.int 1]]⟩

/-- Example column data for label-mapped frequency counting: codes
`{1: count 3, 2: count 5}`. -/
def dfC7 : DataFrame :=
  ⟨["SEX"], [[Value.int 2], [Value.int 1], [Value.int 2], [Value.int 1],
             [Value.int 2], [Value.int 2], [Value.int 2], [Value.int 1]]⟩

/-- Example frame for cross-tabulation; no (Female, Married) record, and
one MAR code (9) absent from the schema. -/
def dfC8 : DataFrame :=
  ⟨["SEX", "MAR"],
   [[Value.int 1, Value.int 1],
    [Value.int 1, Value.int 2],
    [Value.int 2, Value.int 1],
    [Value.int 1, Value.int 9]]⟩

/-- Schema for the cross-tabulation example. -/
def dictC8 : Schema :=
  [("SEX", [("1", "Male"), ("2", "Female")]),
   ("MAR", [("1", "Single"), ("2", "Married")])]

/-- Example for the filtered sub-distribution: the summary column G holds
the code 3, which is absent from the schema. -/
def dfC9 : DataFrame := ⟨["F", "G"], [[Value.str "1", Value.int 3]]⟩

/-- Schema for `dfC9`: only the filter column F is mapped. -/
def dictC9 : Schema := [("F", [("1", "Yes")])]

/-- Example for the filtered sub-distribution with a mapped summary code. -/
def dfC9b : DataFrame := ⟨["F", "G"], [[Value.str "1", Value.int 1]]⟩

/-- Schema for `dfC9b`: both columns mapped. -/
def dictC9b : Schema := [("F", [("1", "Yes")]), ("G", [("1", "Under 16")])]

/-!
The claims.
-/

/-- C1: for every record set and schema for which refinement completes,
the refined and rejected outputs partition the deduplicated input:
refined-row count plus rejected-row count equals the deduplicated row
count, the two outputs are disjoint, and every deduplicated row appears
in exactly one of the two. -/
theorem c1_refine_partitions_dedup (df : DataFrame) (data_dict : Schema) (id_col : String)
    (ref rem : DataFrame) (h : refine df data_dict id_col = some (ref, rem)) :
    ref.rows.length + rem.rows.length = (dedupRows df id_col).length ∧
    (∀ r ∈ ref.rows, r ∉ rem.rows) ∧
    (∀ p ∈ dedupRows df id_col,
      (p.2 ∈ ref.rows ∧ p.2 ∉ rem.rows) ∨ (p.2 ∈ rem.rows ∧ p.2 ∉ ref.rows)) := by
  obtain ⟨-, -, href, hrem⟩ := refine_eq_some h
  have hdisj : ∀ r ∈ ref.rows, r ∉ rem.rows := by
    intro r hr hr'
    have hr2 : r ∈ (refinedPart df data_dict id_col).map Prod.snd := by
      rw [href] at hr; exact hr
    obtain ⟨p, hp, hpr⟩ := List.mem_map.mp hr2
    have hdd : (p.1, p.2) ∈ dedupRows df id_col := by
      rw [Prod.mk.eta]; exact (List.mem_filter.mp hp).1
    subst hpr
    have hb1 := (mem_refined_iff h hdd).mp hr
    have hb2 := (mem_removed_iff h hdd).mp hr'
    rw [hb1] at hb2
    exact Bool.false_ne_true hb2
  refine ⟨?_, hdisj, ?_⟩
  · rw [href, hrem]
    simp only [List.length_map, refinedPart, removedPart]
    rw [Nat.add_comm]
    exact length_filter_partition _ _
  · intro p hp
    have hdd : (p.1, p.2) ∈ dedupRows df id_col := by rw [Prod.mk.eta]; exact hp
    rcases Bool.eq_false_or_eq_true (rowBroken df.cols data_dict p.2) with hb | hb
    · have hin := (mem_removed_iff h hdd).mpr hb
      exact Or.inr ⟨hin, fun hrf => hdisj _ hrf hin⟩
    · have hin := (mem_refined_iff h hdd).mpr hb
      exact Or.inl ⟨hin, hdisj _ hin⟩

/-- C1 witness: the partition at the concrete example. -/
theorem c1_refine_partitions_dedup_witness :
    refEx.rows.length + remEx.rows.length = (dedupRows dfEx "SerialNum").length ∧
    (∀ r ∈ refEx.rows, r ∉ remEx.rows) ∧
    (∀ p ∈ dedupRows dfEx "SerialNum",
      (p.2 ∈ refEx.rows ∧ p.2 ∉ remEx.rows) ∨ (p.2 ∈ remEx.rows ∧ p.2 ∉ refEx.rows)) :=
  c1_refine_partitions_dedup dfEx dictEx "SerialNum" refEx remEx (by decide)

/-- C2: if any schema column is absent from the record set's columns, the
refiner aborts fatally before producing any output. -/
theorem c2_missing_schema_column_fatal (df : DataFrame) (data_dict : Schema)
    (id_col : String) (c : String) (cm : CodeMap)
    (hmem : (c, cm) ∈ data_dict) (habs : df.cols.contains c = false) :
    refine df data_dict id_col = none := by
  have hc : c ∈ (data_dict.map Prod.fst).filter (fun x => ! df.cols.contains x) :=
    List.mem_filter.mpr ⟨List.mem_map_of_mem _ hmem, by rw [Bool.not_eq_true']; exact habs⟩
  have hne : (data_dict.map Prod.fst).filter (fun x => ! df.cols.contains x) ≠ [] :=
    List.ne_nil_of_mem hc
  simp only [refine, if_pos hne]

/-- C2 witness: refining a frame lacking the SEX column aborts. -/
theorem c2_missing_schema_column_fatal_witness :
    refine dfNoSex dictEx "SerialNum" = none :=
  c2_missing_schema_column_fatal dfNoSex dictEx "SerialNum" "SEX"
    [("1", "Male"), ("2", "Female")] (by decide) (by decide)

/-- C3: a deduplicated row whose string-coerced non-null value in a
schema-tracked column is not a key of that column's code map is rejected;
a row whose value in every schema column is non-null and matches a key is
retained. -/
theorem c3_code_map_membership (df : DataFrame) (data_dict : Schema) (id_col : String)
    (ref rem : DataFrame) (h : refine df data_dict id_col = some (ref, rem))
    (i : Nat) (row : Row) (hrow : (i, row) ∈ dedupRows df id_col) :
    (∀ c cm, (c, cm) ∈ data_dict → getVal df.cols row c ≠ Value.null →
      (cm.map Prod.fst).contains (valueStr (getVal df.cols row c)) = false →
      row ∈ rem.rows) ∧
    ((∀ c cm, (c, cm) ∈ data_dict → getVal df.cols row c ≠ Value.null ∧
      (cm.map Prod.fst).contains (valueStr (getVal df.cols row c)) = true) →
      row ∈ ref.rows) := by
  constructor
  · intro c cm hcm hnn hnc
    refine (mem_removed_iff h hrow).mpr ?_
    rw [rowBroken, List.any_eq_true]
    exact ⟨(c, cm), hcm, violates_iff.mpr (Or.inr ⟨hnn, hnc⟩)⟩
  · intro hall
    refine (mem_refined_iff h hrow).mpr ?_
    rw [rowBroken]
    rw [List.any_eq_false]
    intro cm hcm
    obtain ⟨hnn, hc⟩ := hall cm.1 cm.2 (by rw [Prod.mk.eta]; exact hcm)
    rw [violates, if_neg hnn, hc]
    simp

/-- C3 witness: at the example, the row with SEX code 3 (not a key) is
rejected and the row with SEX code 1 (matching the key "1") is retained. -/
theorem c3_code_map_membership_witness :
    [Value.int 11, Value.int 3] ∈ remEx.rows ∧
    [Value.int 10, Value.int 1] ∈ refEx.rows := by
  obtain ⟨hrej, -⟩ := c3_code_map_membership dfEx dictEx "SerialNum" refEx remEx
    (by decide) 2 [Value.int 11, Value.int 3] (by decide)
  obtain ⟨-, hret⟩ := c3_code_map_membership dfEx dictEx "SerialNum" refEx remEx
    (by decide) 0 [Value.int 10, Value.int 1] (by decide)
  refine ⟨hrej "SEX" [("1", "Male"), ("2", "Female")] (by decide) (by decide) (by decide),
    hret ?_⟩
  intro c cm hcm
  simp only [dictEx, List.mem_singleton, Prod.ext_iff] at hcm
  obtain ⟨rfl, rfl⟩ := hcm
  decide

/-- C4: a deduplicated row with a null value in any schema-tracked column
always ends up in the rejected set. -/
theorem c4_null_always_rejected (df : DataFrame) (data_dict : Schema) (id_col : String)
    (ref rem : DataFrame) (h : refine df data_dict id_col = some (ref, rem))
    (i : Nat) (row : Row) (hrow : (i, row) ∈ dedupRows df id_col)
    (c : String) (cm : CodeMap) (hcm : (c, cm) ∈ data_dict)
    (hnull : getVal df.cols row c = Value.null) :
    row ∈ rem.rows := by
  refine (mem_removed_iff h hrow).mpr ?_
  rw [rowBroken, List.any_eq_true]
  exact ⟨(c, cm), hcm, violates_iff.mpr (Or.inl hnull)⟩

/-- C4 witness: the example row with a missing SEX value is rejected. -/
theorem c4_null_always_rejected_witness :
    [Value.int 12, Value.null] ∈ remEx.rows :=
  c4_null_always_rejected dfEx dictEx "SerialNum" refEx remEx (by decide)
    3 [Value.int 12, Value.null] (by decide)
    "SEX" [("1", "Male"), ("2", "Female")] (by decide) (by decide)

/-- C5: deduplication on the identifier column is stable: the
deduplicated rows are a subsequence of the indexed input, and for every
identifier value the surviving rows with that value are exactly the first
occurrence of that value in original order. -/
theorem c5_dedup_keeps_first_occurrence (df : DataFrame) (id_col : String) (v : Value) :
    List.Sublist (dedupRows df id_col) df.rows.enum ∧
    (dedupRows df id_col).filter (fun p => decide (getVal df.cols p.2 id_col = v)) =
      (df.rows.enum.filter (fun p => decide (getVal df.cols p.2 id_col = v))).take 1 := by
  constructor
  · exact dedupByKey_sublist _ _ _
  · have := dedupByKey_filter_key (fun p : Nat × Row => getVal df.cols p.2 id_col) v []
      df.rows.enum
    simpa [dedupRows] using this

/-- Rows kept by `refine` violate no schema column. -/
theorem rowBroken_false_of_mem_refinedPart (df : DataFrame) (data_dict : Schema)
    (id_col : String) {r : Row}
    (hr : r ∈ (refinedPart df data_dict id_col).map Prod.snd) :
    rowBroken df.cols data_dict r = false := by
  obtain ⟨q, hq, rfl⟩ := List.mem_map.mp hr
  have hdd : (q.1, q.2) ∈ dedupRows df id_col := by
    rw [Prod.mk.eta]; exact (List.mem_filter.mp hq).1
  have hnb : q.1 ∉ brokenIndices df.cols data_dict (dedupRows df id_col) := by
    have := (List.mem_filter.mp hq).2; simpa using this
  rcases Bool.eq_false_or_eq_true (rowBroken df.cols data_dict q.2) with hb | hb
  · exact absurd ((mem_brokenIndices_iff_rowBroken hdd).mpr hb) hnb
  · exact hb

/-- C6: refinement is idempotent: refining the refined output of a
successful run, with the same schema and identifier column, succeeds and
returns that refined set unchanged together with an empty rejected set. -/
theorem c6_refine_idempotent (df : DataFrame) (data_dict : Schema) (id_col : String)
    (ref rem : DataFrame) (h : refine df data_dict id_col = some (ref, rem)) :
    refine ref data_dict id_col = some (ref, ⟨ref.cols, []⟩) := by
  obtain ⟨hmiss, hid, href, -⟩ := refine_eq_some h
  subst href
  set R := (refinedPart df data_dict id_col).map Prod.snd with hR
  have hRpw : R.Pairwise
      (fun a b => getVal df.cols a id_col ≠ getVal df.cols b id_col) := by
    rw [hR, List.pairwise_map]
    exact List.Pairwise.sublist (List.filter_sublist _) (dedupRows_pairwise_key df id_col)
  have hrowsOK : ∀ r ∈ R, rowBroken df.cols data_dict r = false := fun r hr =>
    rowBroken_false_of_mem_refinedPart df data_dict id_col hr
  have hded : dedupRows ⟨df.cols, R⟩ id_col = R.enum := by
    rw [dedupRows]
    exact dedupByKey_eq_self _ [] R.enum (pairwise_enum_snd hRpw)
      (fun a _ => List.not_mem_nil _)
  have hbroken : brokenIndices df.cols data_dict R.enum = [] := by
    rw [brokenIndices, List.flatMap_eq_nil_iff]
    intro cm hcm
    have hOK : ∀ p : Nat × Row, p ∈ R.enum →
        violates (getVal df.cols p.2 cm.1) cm.2 = false := by
      intro p hp
      have hpR : p.2 ∈ R := by
        have := List.mem_map_of_mem Prod.snd hp
        rwa [List.enum_map_snd] at this
      have hnb := hrowsOK p.2 hpR
      rw [rowBroken, List.any_eq_false] at hnb
      exact Bool.not_eq_true _ ▸ hnb cm hcm
    have h1 : R.enum.filter (fun p => decide (getVal df.cols p.2 cm.1 = Value.null)) = [] := by
      rw [List.filter_eq_nil_iff]
      intro p hp
      simp only [decide_eq_true_eq]
      intro hnull
      have := hOK p hp
      rw [violates_iff.mpr (Or.inl hnull)] at this
      exact Bool.true_eq_false.mp this
    have h2 : ((R.enum.filter (fun p => decide (getVal df.cols p.2 cm.1 ≠ Value.null))).filter
        (fun p => ! (cm.2.map Prod.fst).contains
          (valueStr (getVal df.cols p.2 cm.1)))) = [] := by
      rw [List.filter_eq_nil_iff]
      intro p hp
      obtain ⟨hp1, hp2⟩ := List.mem_filter.mp hp
      have hnn : getVal df.cols p.2 cm.1 ≠ Value.null := by simpa using hp2
      have hv := hOK p hp1
      rw [violates, if_neg hnn] at hv
      rw [hv]
      simp
    rw [colViolations, h1, h2]
    rfl
  show refine ⟨df.cols, R⟩ data_dict id_col = some (⟨df.cols, R⟩, ⟨df.cols, []⟩)
  simp only [refine]
  rw [if_neg (not_ne_iff.mpr hmiss), if_neg (by rw [Bool.not_eq_true', hid]; simp)]
  rw [refinedPart, removedPart, hded, hbroken]
  simp [List.enum_map_snd]

/-- C6 witness: re-refining the example's refined output returns it
unchanged with an empty rejected set. -/
theorem c6_refine_idempotent_witness :
    refine refEx dictEx "SerialNum" = some (refEx, ⟨refEx.cols, []⟩) :=
  c6_refine_idempotent dfEx dictEx "SerialNum" refEx remEx (by decide)

/-- C7: label-mapped frequency counting returns index-aligned parallel
(labels, counts) sequences: both are images of one list of distinct
non-null codes sorted ascending, each code mapped to its schema label
with the synthetic fallback "Code {code}" for unmapped codes, each count
the code's number of occurrences; and the concrete example behaves as
stated. -/
theorem c7_label_mapped_counts (df : DataFrame) (column_name : String)
    (code_mapping : CodeMap) :
    ((get_labels_and_counts df column_name code_mapping).1.length =
      (get_labels_and_counts df column_name code_mapping).2.length) ∧
    (∃ codes : List Value,
      codes.Sorted vle ∧ codes.Nodup ∧
      (∀ v, v ∈ codes ↔ v ∈ columnOf df column_name ∧ v ≠ Value.null) ∧
      (get_labels_and_counts df column_name code_mapping).1 =
        codes.map (fun c => (List.lookup (valueStr c) code_mapping).getD
          ("Code " ++ valueStr c)) ∧
      (get_labels_and_counts df column_name code_mapping).2 =
        codes.map (fun c => (columnOf df column_name).count c)) ∧
    get_labels_and_counts dfC7 "SEX" [("1", "Male"), ("2", "Female")] =
      (["Male", "Female"], [3, 5]) := by
  refine ⟨by simp [get_labels_and_counts], ?_, by decide⟩
  refine ⟨List.insertionSort vle
    (((columnOf df column_name).filter (fun v => decide (v ≠ Value.null))).dedup),
    List.sorted_insertionSort vle _, ?_, ?_, ?_, ?_⟩
  · exact (List.perm_insertionSort vle _).nodup_iff.mpr (List.nodup_dedup _)
  · intro v
    rw [(List.perm_insertionSort vle _).mem_iff, List.mem_dedup, List.mem_filter]
    simp
  · simp only [get_labels_and_counts, valueCountsSorted, List.map_map]
    rfl
  · simp only [get_labels_and_counts, valueCountsSorted, List.map_map]
    refine List.map_congr_left (fun v hv => ?_)
    have hvne : v ≠ Value.null := by
      have hmem := (List.perm_insertionSort vle _).mem_iff.mp hv
      have h2 := (List.mem_filter.mp (List.mem_dedup.mp hmem)).2
      simpa using h2
    show ((columnOf df column_name).filter (fun v => decide (v ≠ Value.null))).count v =
      (columnOf df column_name).count v
    exact List.count_filter (by simpa using hvne)

/-- C8: the cross-tabulation's index names are the original column names;
a label is on the row (resp. column) axis exactly when some record
carries it as its first (resp. second) mapped label; and every (row
label, column label) combination on the axes has a present cell holding
the number of records with exactly that label pair — `0`, not a missing
entry, when no record has the combination. -/
theorem c8_crosstab_table (df : DataFrame) (col1 col2 : String) (data_dict : Schema)
    (rl cl : String) :
    (crosstab_groupby df col1 col2 data_dict).rowName = col1 ∧
    (crosstab_groupby df col1 col2 data_dict).colName = col2 ∧
    (rl ∈ (crosstab_groupby df col1 col2 data_dict).rowLabels ↔
      ∃ p ∈ labelPairs df col1 col2 data_dict, p.1 = rl) ∧
    (cl ∈ (crosstab_groupby df col1 col2 data_dict).colLabels ↔
      ∃ p ∈ labelPairs df col1 col2 data_dict, p.2 = cl) ∧
    (rl ∈ (crosstab_groupby df col1 col2 data_dict).rowLabels →
      cl ∈ (crosstab_groupby df col1 col2 data_dict).colLabels →
      lookupCell (crosstab_groupby df col1 col2 data_dict) rl cl =
        some ((labelPairs df col1 col2 data_dict).count (rl, cl))) := by
  simp only [crosstab_groupby, lookupCell]
  refine ⟨trivial, trivial, ?_, ?_, ?_⟩
  · rw [(List.perm_insertionSort _ _).mem_iff, List.mem_dedup, List.mem_map]
  · rw [(List.perm_insertionSort _ _).mem_iff, List.mem_dedup, List.mem_map]
  · intro hr hc
    have hidx1 : (List.insertionSort (· ≤ ·)
        ((labelPairs df col1 col2 data_dict).map Prod.fst).dedup).indexOf rl <
        (List.insertionSort (· ≤ ·)
        ((labelPairs df col1 col2 data_dict).map Prod.fst).dedup).length :=
      List.indexOf_lt_length.mpr hr
    have hidx2 : (List.insertionSort (· ≤ ·)
        ((labelPairs df col1 col2 data_dict).map Prod.snd).dedup).indexOf cl <
        (List.insertionSort (· ≤ ·)
        ((labelPairs df col1 col2 data_dict).map Prod.snd).dedup).length :=
      List.indexOf_lt_length.mpr hc
    rw [List.getElem?_map, List.getElem?_eq_getElem hidx1]
    simp only [Option.map_some', Option.some_bind, List.getElem_indexOf hidx1]
    rw [List.getElem?_map, List.getElem?_eq_getElem hidx2]
    simp only [Option.map_some', List.getElem_indexOf hidx2]

/-- C8 witness: in the example table the unobserved (Female, Married)
combination is present with value 0, and the index names are the column
names. -/
theorem c8_crosstab_table_witness :
    (crosstab_groupby dfC8 "SEX" "MAR" dictC8).rowName = "SEX" ∧
    (crosstab_groupby dfC8 "SEX" "MAR" dictC8).colName = "MAR" ∧
    lookupCell (crosstab_groupby dfC8 "SEX" "MAR" dictC8) "Female" "Married" = some 0 := by
  obtain ⟨h1, h2, h3, h4, h5⟩ := c8_crosstab_table dfC8 "SEX" "MAR" dictC8 "Female" "Married"
  refine ⟨h1, h2, ?_⟩
  rw [h5 (h3.mpr (by decide)) (h4.mpr (by decide))]
  decide

/-- C9 counterexample: on a concrete input whose summary column holds a
code absent from the schema map, the filtered sub-distribution labels it
null (no synthetic fallback), while label-mapped frequency counting on
the same restricted subset labels it "Code 3" — so the two do not agree
as the claim states. -/
theorem c9_fallback_counterexample :
    ¬ ((pandas_filtering dfC9 "F" ["1"] "G" dictC9).1 =
      ((get_labels_and_counts (filteredSub dfC9 "F" ["1"]) "G"
        (mapping_from_dict "G" dictC9)).1.map some)) ∧
    (pandas_filtering dfC9 "F" ["1"] "G" dictC9).1 = [none] ∧
    (get_labels_and_counts (filteredSub dfC9 "F" ["1"]) "G"
      (mapping_from_dict "G" dictC9)).1 = ["Code 3"] := by decide

/-- C9 (amended): the filtered sub-distribution tabulates the same counts
as label-mapped frequency counting applied to the subset of rows whose
string-coerced filter-column value is in the acceptable code list, with
label lists of equal length that agree at every index whose code the
schema maps; a code absent from the map gets a null label in the filtered
sub-distribution instead of the synthetic "Code {code}" fallback. -/
theorem c9_filtered_distribution_agrees (df : DataFrame) (filter_col : String)
    (filter_codes : List String) (groupby_col : String) (data_dict : Schema) :
    (pandas_filtering df filter_col filter_codes groupby_col data_dict).2 =
      (get_labels_and_counts (filteredSub df filter_col filter_codes) groupby_col
        (mapping_from_dict groupby_col data_dict)).2 ∧
    (pandas_filtering df filter_col filter_codes groupby_col data_dict).1.length =
      (get_labels_and_counts (filteredSub df filter_col filter_codes) groupby_col
        (mapping_from_dict groupby_col data_dict)).1.length ∧
    (∀ (i : Nat) (l : String),
      (pandas_filtering df filter_col filter_codes groupby_col data_dict).1[i]? =
        some (some l) →
      (get_labels_and_counts (filteredSub df filter_col filter_codes) groupby_col
        (mapping_from_dict groupby_col data_dict)).1[i]? = some l) := by
  refine ⟨rfl, by simp [pandas_filtering, get_labels_and_counts], ?_⟩
  intro i l h
  simp only [pandas_filtering, List.getElem?_map] at h
  simp only [get_labels_and_counts, List.getElem?_map]
  cases hcell : (valueCountsSorted
      (columnOf (filteredSub df filter_col filter_codes) groupby_col))[i]? with
  | none => rw [hcell] at h; simp at h
  | some p =>
    rw [hcell] at h
    simp only [Option.map_some'] at h
    have hlk := Option.some.inj h
    simp [Option.map_some', hlk]

/-- C9 witness: with a mapped summary code the two tabulations agree. -/
theorem c9_filtered_distribution_agrees_witness :
    (pandas_filtering dfC9b "F" ["1"] "G" dictC9b).2 =
      (get_labels_and_counts (filteredSub dfC9b "F" ["1"]) "G"
        (mapping_from_dict "G" dictC9b)).2 ∧
    (get_labels_and_counts (filteredSub dfC9b "F" ["1"]) "G"
      (mapping_from_dict "G" dictC9b)).1[0]? = some "Under 16" := by
  obtain ⟨h1, -, h3⟩ := c9_filtered_distribution_agrees dfC9b "F" ["1"] "G" dictC9b
  exact ⟨h1, h3 0 "Under 16" (by decide)⟩

/-- C10: refinement is a pure function of its input in this embedding and
never alters the raw cell values: both output frames keep the input's
header, and their row lists are subsequences of the input's row list, so
every retained row carries its original raw (uncoerced) values in every
column. -/
theorem c10_refine_preserves_raw_rows (df : DataFrame) (data_dict : Schema)
    (id_col : String) (ref rem : DataFrame)
    (h : refine df data_dict id_col = some (ref, rem)) :
    ref.cols = df.cols ∧ rem.cols = df.cols ∧
    List.Sublist ref.rows df.rows ∧ List.Sublist rem.rows df.rows := by
  obtain ⟨-, -, href, hrem⟩ := refine_eq_some h
  subst href hrem
  have hsub2 : List.Sublist (dedupRows df id_col) df.rows.enum :=
    dedupByKey_sublist _ _ _
  refine ⟨rfl, rfl, ?_, ?_⟩
  · have hsub : List.Sublist (refinedPart df data_dict id_col) (dedupRows df id_col) := by
      rw [refinedPart]; exact List.filter_sublist _
    have h1 := (hsub.trans hsub2).map Prod.snd
    rwa [List.enum_map_snd] at h1
  · have hsub : List.Sublist (removedPart df data_dict id_col) (dedupRows df id_col) := by
      rw [removedPart]; exact List.filter_sublist _
    have h1 := (hsub.trans hsub2).map Prod.snd
    rwa [List.enum_map_snd] at h1

/-- C10 witness: at the concrete example both outputs keep the header and
their rows are subsequences of the raw rows. -/
theorem c10_refine_preserves_raw_rows_witness :
    refEx.cols = dfEx.cols ∧ remEx.cols = dfEx.cols ∧
    List.Sublist refEx.rows dfEx.rows ∧ List.Sublist remEx.rows dfEx.rows :=
  c10_refine_preserves_raw_rows dfEx dictEx "SerialNum" refEx remEx (by decide)
